import Mathlib

/-!
Verification development for the TSA conference web application (`app.py`).

The application serves a conference schedule (from a Google-Calendar ICS
feed, falling back to a static table), a live-events board backed by a JSON
file, and admin CRUD endpoints.  Pure Python string data is embedded as
`String` / `List Char`; file and network reads are embedded as explicit
`Option` inputs describing the outcome of the read; the JSON store is an
explicit state value threaded through the handlers.
-/

/-! ## String primitives

Python's `in` operator on strings (contiguous substring test) and `str.lower`,
embedded over `List Char`.
-/

/-- Python `needle == haystack[:len(needle)]`: Boolean prefix test. -/
def isPrefixB : List Char → List Char → Bool
  | [], _ => true
  | _ :: _, [] => false
  | a :: as, b :: bs => a == b && isPrefixB as bs

/-- Python `needle in haystack`: contiguous-substring test. -/
def containsSub (needle : List Char) : List Char → Bool
  | [] => isPrefixB needle []
  | c :: rest => isPrefixB needle (c :: rest) || containsSub needle rest

/-- Python `str.lower()` restricted to its character-wise core. -/
def lowerList (s : List Char) : List Char := s.map Char.toLower

theorem isPrefixB_mem {n h : List Char} (hp : isPrefixB n h = true) :
    ∀ c ∈ n, c ∈ h := by
  induction n generalizing h with
  | nil => intro c hc; cases hc
  | cons a as ih =>
    cases h with
    | nil => simp [isPrefixB] at hp
    | cons b bs =>
      simp only [isPrefixB, Bool.and_eq_true, beq_iff_eq] at hp
      intro c hc
      rcases List.mem_cons.mp hc with rfl | hc
      · exact List.mem_cons.mpr (Or.inl hp.1)
      · exact List.mem_cons.mpr (Or.inr (ih hp.2 c hc))

theorem containsSub_mem {n h : List Char} (hs : containsSub n h = true) :
    ∀ c ∈ n, c ∈ h := by
  induction h with
  | nil =>
    cases n with
    | nil => intro c hc; cases hc
    | cons a as => simp [containsSub, isPrefixB] at hs
  | cons b bs ih =>
    simp only [containsSub, Bool.or_eq_true] at hs
    rcases hs with hp | hc
    · exact isPrefixB_mem hp
    · intro c hcn; exact List.mem_cons.mpr (Or.inr (ih hc c hcn))

/-! ## `CATEGORY_KEYWORDS` and `categorize_event` (app.py lines 173–188)

`CATEGORY_KEYWORDS` is a Python dict literal; dicts preserve insertion
order, so it is embedded as an ordered association list.
-/

def CATEGORY_KEYWORDS : List (String × List String) :=
  [ ("competition",
      ["competition", "contest", "challenge", "design", "coding", "robotics",
       "engineering"]),
    ("ceremony", ["ceremony", "opening", "closing", "awards"]),
    ("break", ["lunch", "dinner", "breakfast", "break", "meal"]),
    ("social", ["social", "mixer", "networking", "meet"]),
    ("general", ["registration", "check-in", "judging", "meeting"]) ]

/-- The `for category, keywords in CATEGORY_KEYWORDS.items()` loop body:
the first category with a keyword occurring in the lowered name wins. -/
def categorizeLoop (event_lower : List Char) :
    List (String × List String) → String
  | [] => "general"
  | (category, keywords) :: rest =>
    if keywords.any (fun kw => containsSub kw.data event_lower) then category
    else categorizeLoop event_lower rest

/-- `categorize_event(event_name)`: auto-categorize events based on keywords
in the name (app.py lines 181–188). -/
def categorize_event (event_name : String) : String :=
  categorizeLoop (lowerList event_name.data) CATEGORY_KEYWORDS

example : categorize_event "Opening Ceremony" = "ceremony" := by decide
example : categorize_event "Semifinal Judging 2pm" = "general" := by decide
example : categorize_event "" = "general" := by decide

/-! ## General lemmas about `categorizeLoop` -/

theorem any_congrB {α : Type} (l : List α) (p q : α → Bool)
    (h : ∀ a ∈ l, p a = q a) : l.any p = l.any q := by
  induction l with
  | nil => rfl
  | cons a as ih =>
    simp only [List.any_cons]
    rw [h a (List.mem_cons_self a as),
      ih (fun b hb => h b (List.mem_cons_of_mem a hb))]

theorem categorizeLoop_eq_general (el : List Char) :
    ∀ cats : List (String × List String),
    (∀ p ∈ cats, p.1 ≠ "general" →
      ∀ kw ∈ p.2, containsSub kw.data el = false) →
    categorizeLoop el cats = "general"
  | [], _ => rfl
  | (cat, kws) :: rest, h => by
    simp only [categorizeLoop]
    by_cases hc : cat = "general"
    · subst hc
      split
      · rfl
      · exact categorizeLoop_eq_general el rest
          (fun p hp => h p (List.mem_cons_of_mem _ hp))
    · have hany : (kws.any fun kw => containsSub kw.data el) = false := by
        rw [List.any_eq_false]
        intro kw hkw
        simp [h (cat, kws) (List.mem_cons_self _ _) hc kw hkw]
      rw [hany]
      simp only [Bool.false_eq_true, if_false]
      exact categorizeLoop_eq_general el rest
        (fun p hp => h p (List.mem_cons_of_mem _ hp))

theorem categorizeLoop_mem (el : List Char) :
    ∀ cats : List (String × List String),
    categorizeLoop el cats = "general" ∨
      categorizeLoop el cats ∈ cats.map Prod.fst
  | [] => Or.inl rfl
  | (cat, kws) :: rest => by
    simp only [categorizeLoop]
    split
    · exact Or.inr (List.mem_cons_self _ _)
    · rcases categorizeLoop_mem el rest with h | h
      · exact Or.inl h
      · exact Or.inr (List.mem_cons_of_mem _ h)

theorem categorizeLoop_find (el : List Char) :
    ∀ cats : List (String × List String),
    (∀ p ∈ cats, ∀ kw ∈ p.2, lowerList kw.data = kw.data) →
    categorizeLoop el cats =
      ((cats.find? fun p =>
          p.2.any fun kw => containsSub (lowerList kw.data) el).map
        Prod.fst).getD "general"
  | [], _ => rfl
  | (cat, kws) :: rest, h => by
    have hkws : (kws.any fun kw => containsSub (lowerList kw.data) el) =
        (kws.any fun kw => containsSub kw.data el) := by
      apply any_congrB
      intro kw hkw
      rw [h (cat, kws) (List.mem_cons_self _ _) kw hkw]
    simp only [categorizeLoop, List.find?_cons, hkws]
    by_cases hc : (kws.any fun kw => containsSub kw.data el) = true
    · simp [hc]
    · simp only [Bool.not_eq_true] at hc
      simp only [hc, Bool.false_eq_true, if_false]
      exact categorizeLoop_find el rest
        (fun p hp => h p (List.mem_cons_of_mem _ hp))

/-! ## Whitespace facts used for empty / whitespace-only inputs -/

theorem toLower_whitespace (c : Char) (h : c.isWhitespace = true) :
    (Char.toLower c).isWhitespace = true := by
  simp only [Char.isWhitespace, Bool.or_eq_true, decide_eq_true_eq] at h
  rcases h with ((rfl | rfl) | rfl) | rfl <;> decide

theorem keywords_have_nonspace :
    ∀ p ∈ CATEGORY_KEYWORDS, ∀ kw ∈ p.2,
      (kw.data.any fun c => !c.isWhitespace) = true := by decide

/-- C5 counterexample helper fact is stated in the claim theorems below. -/
theorem containsSub_false_of_whitespace {kw el : List Char}
    (hel : ∀ c ∈ el, c.isWhitespace = true)
    (hkw : (kw.any fun c => !c.isWhitespace) = true) :
    containsSub kw el = false := by
  by_contra hne
  rw [Bool.not_eq_false] at hne
  rcases List.any_eq_true.mp hkw with ⟨c, hc, hcw⟩
  have : c ∈ el := containsSub_mem hne c hc
  rw [hel c this] at hcw
  simp at hcw

/-! ## Spec-side restatement of the classifier (for claim C8) -/

/-- A keyword of category `p` occurs as a case-insensitive substring of `s`. -/
def matchesCategory (s : String) (p : String × List String) : Bool :=
  p.2.any fun kw => containsSub (lowerList kw.data) (lowerList s.data)

/-- The classifier as the spec phrases it: the first category (in the fixed
dict order) with a case-insensitively occurring keyword, else "general". -/
def categorize_spec (s : String) : String :=
  ((CATEGORY_KEYWORDS.find? (matchesCategory s)).map Prod.fst).getD "general"

theorem category_keywords_lower_fixed :
    ∀ p ∈ CATEGORY_KEYWORDS, ∀ kw ∈ p.2, lowerList kw.data = kw.data := by
  decide

/-- C1: the claim as stated is false on the code: `categorize_event` has no
"semifinal" category at all, and "Semifinal Judging 2pm" lands in "general"
via the "judging" keyword. -/
theorem C1_counterexample :
    categorize_event "Semifinal Judging 2pm" = "general" ∧
      categorize_event "Semifinal Judging 2pm" ≠ "semifinal" := by
  constructor
  · decide
  · decide

/-- C1 (amended): for every cell text in which no keyword of the
competition, ceremony, break or social categories occurs (in the lowered
text) and "judging" occurs, `categorize_event` returns "general" — the
classifier has no semifinal phase, and such texts fall to the "general"
category that owns the "judging" keyword. -/
theorem C1_judging_text_is_general (s : String)
    (hother : ∀ p ∈ CATEGORY_KEYWORDS, p.1 ≠ "general" →
      ∀ kw ∈ p.2, containsSub kw.data (lowerList s.data) = false)
    (hj : containsSub ("judging").data (lowerList s.data) = true) :
    categorize_event s = "general" :=
  categorizeLoop_eq_general (lowerList s.data) CATEGORY_KEYWORDS hother

/-- C1 witness: the amended statement applied at "Semifinal Judging 2pm". -/
theorem C1_judging_text_is_general_witness :
    categorize_event "Semifinal Judging 2pm" = "general" :=
  C1_judging_text_is_general "Semifinal Judging 2pm" (by decide) (by decide)

/-- C5: the claim as stated is false on the code: there is no "none" phase;
empty and whitespace-only inputs are classified "general". -/
theorem C5_counterexample :
    categorize_event "" = "general" ∧ categorize_event "" ≠ "none" ∧
      categorize_event "  " = "general" ∧ categorize_event "  " ≠ "none" := by
  refine ⟨by decide, by decide, by decide, by decide⟩

/-- C5 (amended): every input string that is empty or consists only of
whitespace is classified "general" (the default: no keyword occurs in it);
the classifier has no "none" phase. -/
theorem C5_whitespace_is_general (s : String)
    (hws : ∀ c ∈ s.data, c.isWhitespace = true) :
    categorize_event s = "general" := by
  apply categorizeLoop_eq_general
  intro p hp _ kw hkw
  apply containsSub_false_of_whitespace
  · intro c hc
    rcases List.mem_map.mp hc with ⟨c0, hc0, rfl⟩
    exact toLower_whitespace c0 (hws c0 hc0)
  · exact keywords_have_nonspace p hp kw hkw

/-- C5 witness: the amended statement applied at the whitespace-only
string "  ". -/
theorem C5_whitespace_is_general_witness :
    categorize_event "  " = "general" :=
  C5_whitespace_is_general "  " (by decide)

/-- C8: `categorize_event` always returns one of the five categories
competition, ceremony, break, social, general, and it equals the
first-matching-category rule `categorize_spec` (first category in the fixed
order with a keyword occurring case-insensitively in the input, defaulting
to "general"). -/
theorem C8_classifier_range_and_first_match (s : String) :
    categorize_event s ∈
        (["competition", "ceremony", "break", "social", "general"] :
          List String) ∧
      categorize_event s = categorize_spec s := by
  constructor
  · rcases categorizeLoop_mem (lowerList s.data) CATEGORY_KEYWORDS with h | h
    · rw [categorize_event, h]; decide
    · rw [categorize_event]
      revert h
      simp [CATEGORY_KEYWORDS]
  · rw [categorize_event, categorize_spec]
    exact categorizeLoop_find (lowerList s.data) CATEGORY_KEYWORDS
      category_keywords_lower_fixed

/-! ## The JSON store (`live_events.json`)

`load_live_events` / `save_live_events` read and write one JSON document
holding the live events, announcements and semifinalist signups.  The
document is embedded as `LiveData`; a handler is a function from the loaded
document (plus its request parameters) to a response and the document as
left in the store afterwards.  Announcement and signup ids come from
`.get('id')`, which yields `None` when the key is absent, hence `Option Nat`.
-/

structure LiveEvent where
  id : String
  event : String := ""
  location : String := ""
  scheduled_time : String := ""
  status : String := ""
deriving DecidableEq

structure Announcement where
  id : Option Nat
  text : String := ""
deriving DecidableEq

structure Signup where
  id : Option Nat
  info : String := ""
deriving DecidableEq

structure LiveData where
  events : List LiveEvent := []
  announcements : List Announcement := []
  semifinalist_signups : List Signup := []
deriving DecidableEq

/-- The default document `load_live_events` falls back to when the backing
file is missing or malformed (`{"events": [], "announcements": []}`; the
absent `semifinalist_signups` key reads back as `[]` via `.get`). -/
def emptyLiveData : LiveData := {}

/-- `load_live_events()` with the outcome of reading the backing file made
explicit: `none` models `FileNotFoundError` / `JSONDecodeError`, `some d`
a successful parse of document `d` (app.py lines 41–57, local-JSON path). -/
def load_live_events (file : Option LiveData) : LiveData :=
  match file with
  | some d => d
  | none => emptyLiveData

/-! ## Claim C4: purity of the classifier -/

/-- `categorize_event` with the mutable program state (the JSON store)
threaded explicitly: the function body reads only its argument and the
`CATEGORY_KEYWORDS` constant and performs no writes, so the state passes
through untouched. -/
def categorize_eventSt (st : LiveData) (event_name : String) :
    String × LiveData :=
  (categorize_event event_name, st)

/-- C4: the classifier is total, deterministic and side-effect free: it
leaves the threaded state unchanged, its result agrees with the pure
function and is independent of the state, and two runs on equal input
strings return equal results. -/
theorem C4_classifier_pure (st st' : LiveData) (s s' : String)
    (hss : s = s') :
    (categorize_eventSt st s).2 = st ∧
      (categorize_eventSt st s).1 = categorize_event s ∧
      (categorize_eventSt st s).1 = (categorize_eventSt st' s').1 := by
  subst hss
  exact ⟨rfl, rfl, rfl⟩

/-- C4 witness: the purity statement applied at a concrete state and the
concrete input "Lunch Break" (run against the empty store and a store
holding one announcement). -/
theorem C4_classifier_pure_witness :
    (categorize_eventSt emptyLiveData "Lunch Break").2 = emptyLiveData ∧
      (categorize_eventSt emptyLiveData "Lunch Break").1 =
        categorize_event "Lunch Break" ∧
      (categorize_eventSt emptyLiveData "Lunch Break").1 =
        (categorize_eventSt { announcements := [⟨some 1, "hi"⟩] }
          "Lunch Break").1 :=
  C4_classifier_pure emptyLiveData { announcements := [⟨some 1, "hi"⟩] }
    "Lunch Break" "Lunch Break" rfl

/-! ## Claim C9: the announcement / signup delete handlers

`api_admin_delete_announcement` (app.py lines 607–621) and
`api_admin_delete_signup` (lines 423–437): load the store, filter out every
item whose id equals the requested id, answer 404 without saving when
nothing was removed, otherwise save the filtered document.  The store is
`Option LiveData` (`none` = backing file absent); a handler returns the
response together with the store content after the request.
-/

/-- Outcome of a JSON admin endpoint: success message or error with its
HTTP status code. -/
inductive ApiResp
  | ok (msg : String)
  | err (code : Nat) (msg : String)
deriving DecidableEq

def api_admin_delete_announcement (store : Option LiveData)
    (announcement_id : Nat) : ApiResp × Option LiveData :=
  let data := load_live_events store
  let filtered :=
    data.announcements.filter fun a => !(a.id == some announcement_id)
  if filtered.length = data.announcements.length then
    (ApiResp.err 404 "Announcement not found", store)
  else
    (ApiResp.ok "Announcement deleted!",
      some { data with announcements := filtered })

def api_admin_delete_signup (store : Option LiveData)
    (signup_id : Nat) : ApiResp × Option LiveData :=
  let data := load_live_events store
  let filtered :=
    data.semifinalist_signups.filter fun s => !(s.id == some signup_id)
  if filtered.length = data.semifinalist_signups.length then
    (ApiResp.err 404 "Signup not found", store)
  else
    (ApiResp.ok "Signup deleted!",
      some { data with semifinalist_signups := filtered })

theorem filter_ne_keeps_none {α : Type} (p : α → Bool) (l : List α) :
    ∀ a ∈ l.filter (fun x => !p x), p a = false := by
  intro a ha
  have := List.of_mem_filter ha
  simpa using this

theorem delete_announcement_spec (store : Option LiveData) (aid : Nat) :
    ((api_admin_delete_announcement store aid).1 =
        ApiResp.err 404 "Announcement not found" ↔
      ∀ a ∈ (load_live_events store).announcements, a.id ≠ some aid) ∧
    ((api_admin_delete_announcement store aid).1 =
        ApiResp.err 404 "Announcement not found" →
      (api_admin_delete_announcement store aid).2 = store) ∧
    ((∃ a ∈ (load_live_events store).announcements, a.id = some aid) →
      (api_admin_delete_announcement store aid).1 =
          ApiResp.ok "Announcement deleted!" ∧
        (api_admin_delete_announcement store aid).2 =
          some { load_live_events store with
                 announcements :=
                   (load_live_events store).announcements.filter
                     fun a => !(a.id == some aid) }) ∧
    (∀ a ∈ (load_live_events store).announcements.filter
        (fun a => !(a.id == some aid)), a.id ≠ some aid) := by
  simp only [api_admin_delete_announcement]
  by_cases hlen :
      ((load_live_events store).announcements.filter
        (fun a => !(a.id == some aid))).length =
        (load_live_events store).announcements.length
  · have hall : ∀ a ∈ (load_live_events store).announcements,
        a.id ≠ some aid := by
      intro a ha
      have := (List.filter_length_eq_length.mp hlen) a ha
      simpa using this
    rw [if_pos hlen]
    refine ⟨by simpa using hall, fun _ => rfl, ?_, ?_⟩
    · rintro ⟨a, ha, hid⟩
      exact absurd hid (hall a ha)
    · intro a ha
      exact hall a (List.mem_of_mem_filter ha)
  · rw [if_neg hlen]
    refine ⟨?_, by simp, fun _ => ⟨rfl, rfl⟩, ?_⟩
    · constructor
      · intro h; cases h
      · intro hall
        exfalso
        apply hlen
        rw [List.filter_length_eq_length]
        intro a ha
        simp [hall a ha]
    · intro a ha
      have := filter_ne_keeps_none (fun a => a.id == some aid) _ a ha
      simpa using this

theorem delete_signup_spec (store : Option LiveData) (sid : Nat) :
    ((api_admin_delete_signup store sid).1 =
        ApiResp.err 404 "Signup not found" ↔
      ∀ s ∈ (load_live_events store).semifinalist_signups,
        s.id ≠ some sid) ∧
    ((api_admin_delete_signup store sid).1 =
        ApiResp.err 404 "Signup not found" →
      (api_admin_delete_signup store sid).2 = store) ∧
    ((∃ s ∈ (load_live_events store).semifinalist_signups,
        s.id = some sid) →
      (api_admin_delete_signup store sid).1 =
          ApiResp.ok "Signup deleted!" ∧
        (api_admin_delete_signup store sid).2 =
          some { load_live_events store with
                 semifinalist_signups :=
                   (load_live_events store).semifinalist_signups.filter
                     fun s => !(s.id == some sid) }) ∧
    (∀ s ∈ (load_live_events store).semifinalist_signups.filter
        (fun s => !(s.id == some sid)), s.id ≠ some sid) := by
  simp only [api_admin_delete_signup]
  by_cases hlen :
      ((load_live_events store).semifinalist_signups.filter
        (fun s => !(s.id == some sid))).length =
        (load_live_events store).semifinalist_signups.length
  · have hall : ∀ s ∈ (load_live_events store).semifinalist_signups,
        s.id ≠ some sid := by
      intro s hs
      have := (List.filter_length_eq_length.mp hlen) s hs
      simpa using this
    rw [if_pos hlen]
    refine ⟨by simpa using hall, fun _ => rfl, ?_, ?_⟩
    · rintro ⟨s, hs, hid⟩
      exact absurd hid (hall s hs)
    · intro s hs
      exact hall s (List.mem_of_mem_filter hs)
  · rw [if_neg hlen]
    refine ⟨?_, by simp, fun _ => ⟨rfl, rfl⟩, ?_⟩
    · constructor
      · intro h; cases h
      · intro hall
        exfalso
        apply hlen
        rw [List.filter_length_eq_length]
        intro s hs
        simp [hall s hs]
    · intro s hs
      have := filter_ne_keeps_none (fun s => s.id == some sid) _ s hs
      simpa using this

/-- C9: each delete handler answers 404 "not found" iff no stored item has
the requested id; in that case the store is left unchanged (no save);
when a matching item exists the handler answers success, saves the
document with every matching item filtered out, and no remaining item has
the requested id. -/
theorem C9_delete_handlers (store : Option LiveData) (aid sid : Nat) :
    (((api_admin_delete_announcement store aid).1 =
        ApiResp.err 404 "Announcement not found" ↔
      ∀ a ∈ (load_live_events store).announcements, a.id ≠ some aid) ∧
    ((api_admin_delete_announcement store aid).1 =
        ApiResp.err 404 "Announcement not found" →
      (api_admin_delete_announcement store aid).2 = store) ∧
    ((∃ a ∈ (load_live_events store).announcements, a.id = some aid) →
      (api_admin_delete_announcement store aid).1 =
          ApiResp.ok "Announcement deleted!" ∧
        (api_admin_delete_announcement store aid).2 =
          some { load_live_events store with
                 announcements :=
                   (load_live_events store).announcements.filter
                     fun a => !(a.id == some aid) }) ∧
    (∀ a ∈ (load_live_events store).announcements.filter
        (fun a => !(a.id == some aid)), a.id ≠ some aid)) ∧
    (((api_admin_delete_signup store sid).1 =
        ApiResp.err 404 "Signup not found" ↔
      ∀ s ∈ (load_live_events store).semifinalist_signups,
        s.id ≠ some sid) ∧
    ((api_admin_delete_signup store sid).1 =
        ApiResp.err 404 "Signup not found" →
      (api_admin_delete_signup store sid).2 = store) ∧
    ((∃ s ∈ (load_live_events store).semifinalist_signups,
        s.id = some sid) →
      (api_admin_delete_signup store sid).1 =
          ApiResp.ok "Signup deleted!" ∧
        (api_admin_delete_signup store sid).2 =
          some { load_live_events store with
                 semifinalist_signups :=
                   (load_live_events store).semifinalist_signups.filter
                     fun s => !(s.id == some sid) }) ∧
    (∀ s ∈ (load_live_events store).semifinalist_signups.filter
        (fun s => !(s.id == some sid)), s.id ≠ some sid)) :=
  ⟨delete_announcement_spec store aid, delete_signup_spec store sid⟩

/-- A concrete store for exercising the delete handlers. -/
def testStore : Option LiveData :=
  some { announcements :=
           [⟨some 1, "welcome"⟩, ⟨some 2, "lunch moved"⟩, ⟨some 1, "dup"⟩],
         semifinalist_signups := [⟨some 7, "team A"⟩] }

/-- C9 witness: the handler spec applied at `testStore`: deleting
announcement id 1 succeeds and removes both matching items, deleting
signup id 9 answers 404 and leaves the store unchanged. -/
theorem C9_delete_handlers_witness :
    (api_admin_delete_announcement testStore 1).1 =
        ApiResp.ok "Announcement deleted!" ∧
      (api_admin_delete_announcement testStore 1).2 =
        some { load_live_events testStore with
               announcements :=
                 (load_live_events testStore).announcements.filter
                   fun a => !(a.id == some 1) } ∧
      (api_admin_delete_signup testStore 9).1 =
        ApiResp.err 404 "Signup not found" ∧
      (api_admin_delete_signup testStore 9).2 = testStore := by
  have h := C9_delete_handlers testStore 1 9
  have hex : ∃ a ∈ (load_live_events testStore).announcements,
      a.id = some 1 := ⟨⟨some 1, "welcome"⟩, by decide, rfl⟩
  have h404 : (api_admin_delete_signup testStore 9).1 =
      ApiResp.err 404 "Signup not found" := h.2.1.mpr (by decide)
  exact ⟨(h.1.2.2.1 hex).1, (h.1.2.2.1 hex).2, h404, h.2.2.1 h404⟩

/-! ## The schedule data model and Python string ordering

`fetch_google_calendar_events` groups events into a dict
`{day_key: {"date": ..., "events": [...]}}` (insertion-ordered, embedded as
an association list) and sorts each day's event list with
`day["events"].sort(key=lambda x: x["time"])` — Python string comparison,
i.e. lexicographic comparison of code points, embedded as `lexLe`.
-/

structure SchedEvent where
  time : String
  end_time : String
  event : String
  location : String
  category : String
  description : String := ""
deriving DecidableEq

structure DaySchedule where
  date : String
  events : List SchedEvent
deriving DecidableEq

abbrev ScheduleByDay := List (String × DaySchedule)

/-- Python `s <= t` on strings: lexicographic by code point. -/
def lexLe : List Char → List Char → Bool
  | [], _ => true
  | _ :: _, [] => false
  | a :: as, b :: bs =>
    if a < b then true else if b < a then false else lexLe as bs

theorem lexLe_total : ∀ a b : List Char, lexLe a b = true ∨ lexLe b a = true
  | [], _ => Or.inl rfl
  | _ :: _, [] => Or.inr rfl
  | a :: as, b :: bs => by
    rcases lt_trichotomy a b with h | h | h
    · left; simp [lexLe, h]
    · subst h
      have hirr : ¬a < a := lt_irrefl a
      simp only [lexLe, if_neg hirr]
      exact lexLe_total as bs
    · right; simp [lexLe, h]

theorem lexLe_trans :
    ∀ {a b c : List Char},
      lexLe a b = true → lexLe b c = true → lexLe a c = true
  | [], _, _, _, _ => rfl
  | _ :: _, [], _, h, _ => by cases h
  | _ :: _, _ :: _, [], _, h => by cases h
  | a :: as, b :: bs, c :: cs, h1, h2 => by
    simp only [lexLe] at h1 h2 ⊢
    rcases lt_trichotomy a b with hab | hab | hab
    · rcases lt_trichotomy b c with hbc | hbc | hbc
      · simp [lt_trans hab hbc]
      · subst hbc; simp [hab]
      · rw [if_neg (asymm hbc), if_pos hbc] at h2; cases h2
    · subst hab
      rw [if_neg (lt_irrefl a), if_neg (lt_irrefl a)] at h1
      rcases lt_trichotomy a c with hac | hac | hac
      · simp [hac]
      · subst hac
        rw [if_neg (lt_irrefl a), if_neg (lt_irrefl a)] at h2 ⊢
        exact lexLe_trans h1 h2
      · rw [if_neg (asymm hac), if_pos hac] at h2; cases h2
    · rw [if_neg (asymm hab), if_pos hab] at h1; cases h1

/-- The sort key relation of `day["events"].sort(key=lambda x: x["time"])`. -/
def timeLeP (a b : SchedEvent) : Prop := lexLe a.time.data b.time.data = true

instance : DecidableRel timeLeP :=
  fun a b => inferInstanceAs (Decidable (_ = true))

instance : IsTotal SchedEvent timeLeP :=
  ⟨fun a b => lexLe_total a.time.data b.time.data⟩

instance : IsTrans SchedEvent timeLeP :=
  ⟨fun _ _ _ => lexLe_trans⟩

/-! ## `fetch_google_calendar_events` (app.py lines 190–265)

The HTTP request, ICS parsing and timezone conversion are external
effects; their outcome is made an explicit input `FetchOutcome`.  The
function's own `try/except` turns every raised error into `None`; an
unconfigured URL also yields `None`.  A parsed calendar is a list of
components; only `VEVENT` components with a `dtstart` produce events.
`strftime('%I:%M %p').lstrip('0')` on an already-localized datetime is
embedded as `formatTime12` over (hour, minute).
-/

/-- `strftime('%A')` / `strftime('%B %d, %Y')` results plus the local
wall-clock time of an ICS datetime (after `astimezone(local_tz)`). -/
structure DateTimeVal where
  dayName : String
  dateStr : String
  hour : Nat
  minute : Nat
deriving DecidableEq

/-- An ICS `dtstart`/`dtend` value: a datetime, or a bare date for
all-day events. -/
inductive DtVal
  | timestamp (d : DateTimeVal)
  | dateOnly (dayName dateStr : String)
deriving DecidableEq

structure VEvent where
  summary : Option String
  location : Option String
  description : Option String
  dtstart : Option DtVal
  dtend : Option DtVal
deriving DecidableEq

inductive CalComponent
  | vevent (v : VEvent)
  | other
deriving DecidableEq

/-- Two-digit zero-padded field (`%M`), for minutes 0–59. -/
def twoDigits (n : Nat) : String :=
  ⟨[Nat.digitChar (n / 10), Nat.digitChar (n % 10)]⟩

/-- `%I` after `.lstrip('0')`: the 12-hour figure without a leading zero. -/
def hourStr (h12 : Nat) : String :=
  if h12 < 10 then ⟨[Nat.digitChar h12]⟩
  else ⟨[Nat.digitChar (h12 / 10), Nat.digitChar (h12 % 10)]⟩

/-- `dt.strftime('%I:%M %p').lstrip('0')` for hour `hour` (0–23) and
minute `minute`. -/
def formatTime12 (hour minute : Nat) : String :=
  hourStr ((hour + 11) % 12 + 1) ++ ":" ++ twoDigits minute ++
    (if hour < 12 then " AM" else " PM")

example : formatTime12 13 0 = "1:00 PM" := by decide
example : formatTime12 9 0 = "9:00 AM" := by decide
example : formatTime12 0 5 = "12:05 AM" := by decide
example : formatTime12 12 30 = "12:30 PM" := by decide

/-- `str.lower()` on a whole string. -/
def lowerStr (s : String) : String := ⟨lowerList s.data⟩

/-- The event dict built for one VEVENT with a present `dtstart`, together
with its `day_key` and `date_str` grouping keys. -/
def eventOfVEvent (v : VEvent) (start : DtVal) :
    SchedEvent × String × String :=
  let summary := v.summary.getD "Untitled Event"
  let end_time :=
    match v.dtend with
    | some (DtVal.timestamp de) => formatTime12 de.hour de.minute
    | _ => ""
  match start with
  | DtVal.timestamp d =>
    ({ time := formatTime12 d.hour d.minute, end_time := end_time,
       event := summary, location := v.location.getD "TBA",
       category := categorize_event summary,
       description := v.description.getD "" },
     lowerStr d.dayName, d.dateStr)
  | DtVal.dateOnly dayName dateStr =>
    ({ time := "All Day", end_time := end_time,
       event := summary, location := v.location.getD "TBA",
       category := categorize_event summary,
       description := v.description.getD "" },
     lowerStr dayName, dateStr)

/-- `events_by_day[day_key]["events"].append(event)`, creating the day
entry on first use (Python dicts preserve insertion order). -/
def addToDay : ScheduleByDay → String → String → SchedEvent → ScheduleByDay
  | [], day_key, date_str, e => [(day_key, ⟨date_str, [e]⟩)]
  | (k, d) :: rest, day_key, date_str, e =>
    if k = day_key then (k, ⟨d.date, d.events ++ [e]⟩) :: rest
    else (k, d) :: addToDay rest day_key date_str e

/-- One iteration of the `for component in cal.walk()` loop. -/
def collectStep (acc : ScheduleByDay) : CalComponent → ScheduleByDay
  | CalComponent.vevent v =>
    match v.dtstart with
    | some start =>
      let (e, day_key, date_str) := eventOfVEvent v start
      addToDay acc day_key date_str e
    | none => acc
  | CalComponent.other => acc

def collectEvents (comps : List CalComponent) : ScheduleByDay :=
  comps.foldl collectStep []

/-- The `day["events"].sort(key=lambda x: x["time"])` pass (a stable sort
by the formatted time label under Python string comparison). -/
def sortSchedule (days : ScheduleByDay) : ScheduleByDay :=
  days.map fun p => (p.1, ⟨p.2.date, List.insertionSort timeLeP p.2.events⟩)

/-- Outcome of the external reads done by `fetch_google_calendar_events`:
no URL configured, a raised HTTP error, a raised ICS parse error, or a
successfully parsed calendar. -/
inductive FetchOutcome
  | noUrl
  | httpError (msg : String)
  | parseError (msg : String)
  | ok (components : List CalComponent)

def fetch_google_calendar_events : FetchOutcome → Option ScheduleByDay
  | FetchOutcome.noUrl => none
  | FetchOutcome.httpError _ => none
  | FetchOutcome.parseError _ => none
  | FetchOutcome.ok comps =>
    let days := sortSchedule (collectEvents comps)
    if days.isEmpty then none else some days

/-! ## `FALLBACK_SCHEDULE` and `get_schedule` (app.py lines 267–297, 325–330) -/

def FALLBACK_SCHEDULE : ScheduleByDay :=
  [ ("friday",
     ⟨"January 30, 2026",
      [ { time := "2:00 PM", end_time := "4:00 PM",
          event := "Registration & Check-in", location := "Main Lobby",
          category := "general" },
        { time := "4:00 PM", end_time := "5:00 PM",
          event := "Opening Ceremony", location := "Auditorium",
          category := "ceremony" },
        { time := "5:00 PM", end_time := "6:30 PM",
          event := "Dinner Break", location := "Cafeteria",
          category := "break" },
        { time := "6:30 PM", end_time := "9:00 PM",
          event := "Written Tests & Preliminary Judging",
          location := "Various Rooms", category := "competition" },
        { time := "9:00 PM", end_time := "10:00 PM",
          event := "Social Mixer & Networking", location := "Gymnasium",
          category := "social" } ]⟩),
    ("saturday",
     ⟨"January 31, 2026",
      [ { time := "7:00 AM", end_time := "8:00 AM", event := "Breakfast",
          location := "Cafeteria", category := "break" },
        { time := "8:00 AM", end_time := "12:00 PM",
          event := "Competition Events - Session 1",
          location := "Various Rooms", category := "competition" },
        { time := "8:30 AM", end_time := "11:30 AM",
          event := "Coding Competition", location := "Computer Lab A",
          category := "competition" },
        { time := "9:00 AM", end_time := "11:00 AM",
          event := "Video Game Design Showcase", location := "Room 204",
          category := "competition" },
        { time := "9:00 AM", end_time := "12:00 PM",
          event := "Webmaster Presentations", location := "Room 301",
          category := "competition" },
        { time := "12:00 PM", end_time := "1:00 PM", event := "Lunch Break",
          location := "Cafeteria", category := "break" },
        { time := "1:00 PM", end_time := "4:00 PM",
          event := "Competition Events - Session 2",
          location := "Various Rooms", category := "competition" },
        { time := "1:00 PM", end_time := "3:00 PM",
          event := "Robotics Challenge", location := "Gymnasium",
          category := "competition" },
        { time := "1:30 PM", end_time := "3:30 PM",
          event := "CAD Engineering", location := "Computer Lab B",
          category := "competition" },
        { time := "2:00 PM", end_time := "4:00 PM",
          event := "Flight Endurance", location := "Field House",
          category := "competition" },
        { time := "4:00 PM", end_time := "5:00 PM",
          event := "Final Judging & Deliberation",
          location := "Judge's Room", category := "general" },
        { time := "5:30 PM", end_time := "7:00 PM",
          event := "Awards Ceremony", location := "Auditorium",
          category := "ceremony" },
        { time := "7:00 PM", end_time := "7:30 PM",
          event := "Closing Remarks", location := "Auditorium",
          category := "ceremony" } ]⟩) ]

/-- `get_schedule()`: use the calendar data when it is truthy (a non-empty
dict), else the static fallback (app.py lines 325–330). -/
def get_schedule (calendar_data : Option ScheduleByDay) : ScheduleByDay :=
  match calendar_data with
  | some days => if days.isEmpty then FALLBACK_SCHEDULE else days
  | none => FALLBACK_SCHEDULE

/-- `get_live_events()`: the events list of the loaded store
(app.py lines 300–303). -/
def get_live_events (file : Option LiveData) : List LiveEvent :=
  (load_live_events file).events

/-- `get_announcements()` (app.py lines 319–322). -/
def get_announcements (file : Option LiveData) : List Announcement :=
  (load_live_events file).announcements

/-! ## Claims C2, C3: degradation behaviour of the schedule pipeline -/

/-- Total number of events across the days of a schedule. -/
def totalEvents (days : ScheduleByDay) : Nat :=
  (days.map fun p => p.2.events.length).sum

theorem totalEvents_addToDay :
    ∀ (acc : ScheduleByDay) (k ds : String) (e : SchedEvent),
    totalEvents (addToDay acc k ds e) = totalEvents acc + 1
  | [], _, _, _ => by simp [addToDay, totalEvents]
  | (k', d) :: rest, k, ds, e => by
    by_cases hk : k' = k
    · simp [addToDay, hk, totalEvents]
      omega
    · simp only [addToDay, if_neg hk, totalEvents, List.map_cons,
        List.sum_cons]
      have := totalEvents_addToDay rest k ds e
      simp only [totalEvents] at this
      omega

theorem totalEvents_collectStep (acc : ScheduleByDay) (c : CalComponent) :
    totalEvents (collectStep acc c) ≤ totalEvents acc + 1 := by
  cases c with
  | other => simp [collectStep]
  | vevent v =>
    cases hst : v.dtstart with
    | none => simp [collectStep, hst]
    | some start =>
      rcases hev : eventOfVEvent v start with ⟨e, dk, ds⟩
      simp only [collectStep, hst, hev]
      rw [totalEvents_addToDay]

theorem totalEvents_foldl_le :
    ∀ (comps : List CalComponent) (acc : ScheduleByDay),
    totalEvents (comps.foldl collectStep acc) ≤ totalEvents acc + comps.length
  | [], acc => by simp
  | c :: cs, acc => by
    simp only [List.foldl_cons, List.length_cons]
    calc totalEvents (cs.foldl collectStep (collectStep acc c))
        ≤ totalEvents (collectStep acc c) + cs.length :=
          totalEvents_foldl_le cs (collectStep acc c)
      _ ≤ totalEvents acc + 1 + cs.length := by
          have := totalEvents_collectStep acc c
          omega
      _ = totalEvents acc + (cs.length + 1) := by omega

theorem totalEvents_sortSchedule (days : ScheduleByDay) :
    totalEvents (sortSchedule days) = totalEvents days := by
  induction days with
  | nil => rfl
  | cons p ps ih =>
    simp only [sortSchedule, totalEvents, List.map_cons, List.sum_cons] at *
    rw [(List.perm_insertionSort timeLeP p.2.events).length_eq, ih]

/-- C2: the claim as stated is false on the code: with no backing data
available at all (no calendar URL configured, hence `fetch` yields `None`),
`get_schedule` does not return empty day event lists — it returns the
static `FALLBACK_SCHEDULE`, whose friday has 5 events and saturday 13. -/
theorem C2_counterexample :
    get_schedule (fetch_google_calendar_events FetchOutcome.noUrl) =
        FALLBACK_SCHEDULE ∧
      (get_schedule (fetch_google_calendar_events FetchOutcome.noUrl)).map
          (fun p => (p.1, p.2.events.length)) =
        [("friday", 5), ("saturday", 13)] :=
  ⟨rfl, by decide⟩

/-- C2 (amended): the missing-file soft-fail belongs to the live-events
store: when `live_events.json` is absent, `load_live_events` returns the
empty default document (empty events, announcements and signups) and no
exception escapes; the schedule-producing `get_schedule` reads no file and,
when no calendar data is available, returns the non-empty built-in
`FALLBACK_SCHEDULE` rather than empty day lists. -/
theorem C2_missing_file_empty_default :
    load_live_events none = emptyLiveData ∧
      get_live_events none = [] ∧
      get_announcements none = [] ∧
      (load_live_events none).semifinalist_signups = [] ∧
      get_schedule none = FALLBACK_SCHEDULE ∧
      (get_schedule none).isEmpty = false :=
  ⟨rfl, rfl, rfl, rfl, rfl, rfl⟩

/-- C3: for every outcome of the external calendar read — unconfigured,
HTTP failure, parse failure, or a parsed component list — `get_schedule`
returns a non-empty schedule (every failure falls back to
`FALLBACK_SCHEDULE`), and a successful parse extracts at most one event
per calendar component: failures only reduce the number of events. -/
theorem C3_schedule_always_renders (o : FetchOutcome) (msg : String)
    (comps : List CalComponent) :
    (get_schedule (fetch_google_calendar_events o)).isEmpty = false ∧
      fetch_google_calendar_events FetchOutcome.noUrl = none ∧
      fetch_google_calendar_events (FetchOutcome.httpError msg) = none ∧
      fetch_google_calendar_events (FetchOutcome.parseError msg) = none ∧
      get_schedule none = FALLBACK_SCHEDULE ∧
      totalEvents
          ((fetch_google_calendar_events (FetchOutcome.ok comps)).getD []) ≤
        comps.length := by
  refine ⟨?_, rfl, rfl, rfl, rfl, ?_⟩
  · cases o with
    | noUrl => decide
    | httpError m => rfl
    | parseError m => rfl
    | ok cs =>
      simp only [fetch_google_calendar_events]
      by_cases hd : (sortSchedule (collectEvents cs)).isEmpty
      · rw [if_pos hd]; decide
      · rw [if_neg hd]
        simp only [get_schedule, if_neg hd]
        exact Bool.not_eq_true _ ▸ Bool.of_not_eq_true hd
  · simp only [fetch_google_calendar_events]
    by_cases hd : (sortSchedule (collectEvents comps)).isEmpty
    · rw [if_pos hd]
      simp [totalEvents]
    · rw [if_neg hd]
      simp only [Option.getD_some]
      rw [totalEvents_sortSchedule]
      have h := totalEvents_foldl_le comps []
      have h0 : totalEvents ([] : ScheduleByDay) = 0 := rfl
      rw [h0] at h
      simp only [collectEvents]
      omega

/-! ## Claim C10: per-day event order is string order, not clock order -/

/-- C10: every schedule produced from the calendar source has each day's
events sorted by `timeLeP`, the lexicographic string comparison of the
formatted start-time labels; and that order is not chronological: the
label of 13:00 ("1:00 PM") compares before the label of 9:00 ("9:00 AM")
although 9:00 is the earlier time. -/
theorem C10_day_events_sorted_lexicographically :
    (∀ (comps : List CalComponent) (sched : ScheduleByDay),
      fetch_google_calendar_events (FetchOutcome.ok comps) = some sched →
      ∀ p ∈ sched, List.Sorted timeLeP p.2.events) ∧
      lexLe ("1:00 PM").data ("9:00 AM").data = true ∧
      lexLe ("9:00 AM").data ("1:00 PM").data = false ∧
      formatTime12 13 0 = "1:00 PM" ∧
      formatTime12 9 0 = "9:00 AM" ∧
      9 * 60 < 13 * 60 := by
  refine ⟨?_, by decide, by decide, by decide, by decide, by decide⟩
  intro comps sched h p hp
  simp only [fetch_google_calendar_events] at h
  by_cases hd : (sortSchedule (collectEvents comps)).isEmpty
  · rw [if_pos hd] at h; cases h
  · rw [if_neg hd] at h
    injection h with h'
    subst h'
    rcases List.mem_map.mp hp with ⟨q, _, rfl⟩
    exact List.sorted_insertionSort timeLeP q.2.events

/-- A two-component calendar for exercising the sort: a 1:00 PM event and
a 9:00 AM event on the same saturday. -/
def witnessComps : List CalComponent :=
  [ CalComponent.vevent
      { summary := some "Robotics Challenge", location := some "Gymnasium",
        description := none,
        dtstart := some (DtVal.timestamp
          ⟨"Saturday", "January 31, 2026", 13, 0⟩),
        dtend := none },
    CalComponent.vevent
      { summary := some "Breakfast", location := some "Cafeteria",
        description := none,
        dtstart := some (DtVal.timestamp
          ⟨"Saturday", "January 31, 2026", 9, 0⟩),
        dtend := none } ]

/-- C10 witness: on `witnessComps` the fetch produces one saturday whose
events are ordered "1:00 PM" before "9:00 AM", and the sortedness theorem
applies to that day. -/
theorem C10_day_events_sorted_lexicographically_witness :
    fetch_google_calendar_events (FetchOutcome.ok witnessComps) =
        some [("saturday",
          ⟨"January 31, 2026",
           [{ time := "1:00 PM", end_time := "",
              event := "Robotics Challenge", location := "Gymnasium",
              category := "competition" },
            { time := "9:00 AM", end_time := "", event := "Breakfast",
              location := "Cafeteria", category := "break" }]⟩)] ∧
      List.Sorted timeLeP
        [{ time := "1:00 PM", end_time := "",
           event := "Robotics Challenge", location := "Gymnasium",
           category := "competition" },
         { time := "9:00 AM", end_time := "", event := "Breakfast",
           location := "Cafeteria", category := "break" }] := by
  have hf : fetch_google_calendar_events (FetchOutcome.ok witnessComps) =
      some [("saturday",
        ⟨"January 31, 2026",
         [{ time := "1:00 PM", end_time := "",
            event := "Robotics Challenge", location := "Gymnasium",
            category := "competition" },
          { time := "9:00 AM", end_time := "", event := "Breakfast",
            location := "Cafeteria", category := "break" }]⟩)] := by decide
  refine ⟨hf, ?_⟩
  exact C10_day_events_sorted_lexicographically.1 witnessComps _ hf _
    (List.mem_cons_self _ _)

/-! ## Claim C6: Override Merge (modelled from the spec)

The Override Merge component of the spec (§4.4) has no implementation in
`src/app.py` (the repository ships no schedule-grid parser); it is
modelled here from the spec's words.
-/

/-- Modelled from the spec: the Event record of spec §3 for the absent
schedule-grid parser, including the fields the Override Merge adds
(`delayed`, `original_start/end/room`, absent before a merge). -/
structure OEvent where
  name : String
  room : String
  tags : List String := []
  start : String
  end_ : String
  setup_start : Option String := none
  setup_end : Option String := none
  judging_start : Option String := none
  judging_end : Option String := none
  semi_start : Option String := none
  semi_end : Option String := none
  activity_start : Option String := none
  activity_end : Option String := none
  delayed : Option Bool := none
  original_start : Option String := none
  original_end : Option String := none
  original_room : Option String := none
deriving DecidableEq

/-- Modelled from the spec: an admin Override record (spec §3), all fields
optional in the sense that the empty string means "leave unchanged". -/
structure Override where
  new_start : String := ""
  new_end : String := ""
  new_room : String := ""
deriving DecidableEq

/-- The `"<day>::<event name>"` key of the Override store (spec §4.4). -/
def overrideKey (day name : String) : String := day ++ "::" ++ name

/-- Modelled from the spec: the per-event step of Override Merge
(spec §4.4): on a key match set `delayed`, save the current start/end/room
into `original_*`, and replace start/end/room by the override's non-empty
fields; otherwise just set `delayed := false`. -/
def mergeOne (day : String) (overrides : List (String × Override))
    (e : OEvent) : OEvent :=
  match overrides.lookup (overrideKey day e.name) with
  | some ov =>
    { e with delayed := some true,
             original_start := some e.start,
             original_end := some e.end_,
             original_room := some e.room,
             start := if ov.new_start ≠ "" then ov.new_start else e.start,
             end_ := if ov.new_end ≠ "" then ov.new_end else e.end_,
             room := if ov.new_room ≠ "" then ov.new_room else e.room }
  | none => { e with delayed := some false }

/-- Modelled from the spec: Override Merge over a day's Event list
(spec §4.4). -/
def override_merge (day : String) (overrides : List (String × Override))
    (events : List OEvent) : List OEvent :=
  events.map (mergeOne day overrides)

/-- Override Merge with the Override store threaded as explicit state: the
merge only reads the store. -/
def override_mergeSt (st : List (String × Override)) (day : String)
    (events : List OEvent) : List OEvent × List (String × Override) :=
  (override_merge day st events, st)

/-- The fields exposed for display: name, room, start, end, delayed. -/
def mainFields (e : OEvent) :
    String × String × String × String × Option Bool :=
  (e.name, e.room, e.start, e.end_, e.delayed)

theorem mergeOne_name (day : String) (ovs : List (String × Override))
    (e : OEvent) : (mergeOne day ovs e).name = e.name := by
  cases hl : ovs.lookup (overrideKey day e.name) <;> simp [mergeOne, hl]

theorem mainFields_mergeOne_mergeOne (day : String)
    (ovs : List (String × Override)) (e : OEvent) :
    mainFields (mergeOne day ovs (mergeOne day ovs e)) =
      mainFields (mergeOne day ovs e) := by
  cases hl : ovs.lookup (overrideKey day e.name) with
  | none =>
    have hl2 : ovs.lookup (overrideKey day (mergeOne day ovs e).name) =
        none := by rw [mergeOne_name, hl]
    simp [mergeOne, hl, hl2, mainFields]
  | some ov =>
    have hl2 : ovs.lookup (overrideKey day (mergeOne day ovs e).name) =
        some ov := by rw [mergeOne_name, hl]
    simp only [mergeOne, hl, hl2, mainFields]
    by_cases hs : ov.new_start = "" <;> by_cases he : ov.new_end = "" <;>
      by_cases hr : ov.new_room = "" <;> simp [hs, he, hr]

/-- C6 counterexample event and override store (the concrete example of
spec §8). -/
def c6Event : OEvent :=
  { name := "Coding", room := "Room 1", start := "2:00 PM",
    end_ := "2:30 PM" }

def c6Overrides : List (String × Override) :=
  [(overrideKey "friday" "Coding",
    { new_start := "3:00 PM", new_end := "", new_room := "Room 5" })]

/-- C6: the claim as stated is false on the spec-modelled merge: a second
application overwrites `original_start` with the already-overridden start
("3:00 PM" instead of "2:00 PM"), so merging twice differs from merging
once. -/
theorem C6_counterexample :
    override_merge "friday" c6Overrides
        (override_merge "friday" c6Overrides [c6Event]) ≠
      override_merge "friday" c6Overrides [c6Event] ∧
    (override_merge "friday" c6Overrides [c6Event]).map
        (fun e => e.original_start) = [some "2:00 PM"] ∧
    (override_merge "friday" c6Overrides
        (override_merge "friday" c6Overrides [c6Event])).map
        (fun e => e.original_start) = [some "3:00 PM"] := by
  refine ⟨by decide, by decide, by decide⟩

/-- C6 (amended): Override Merge applied twice agrees with one application
on the displayed fields (name, room, start, end, delayed) — the override
replacement itself does not double-apply — but the `original_*` backup
fields are overwritten by the second application; the merge never mutates
the Override store. -/
theorem C6_merge_idempotent_on_displayed_fields (day : String)
    (ovs : List (String × Override)) (evs : List OEvent) :
    (override_merge day ovs (override_merge day ovs evs)).map mainFields =
        (override_merge day ovs evs).map mainFields ∧
      (override_mergeSt ovs day evs).2 = ovs ∧
      (override_mergeSt ovs day evs).1 = override_merge day ovs evs := by
  refine ⟨?_, rfl, rfl⟩
  induction evs with
  | nil => rfl
  | cons e es ih =>
    simp only [override_merge, List.map_cons] at *
    rw [mainFields_mergeOne_mergeOne, ih]

/-! ## Claim C7: Event Name Normalizer (modelled from the spec)

The Event Name Normalizer of the spec (§4.2) has no implementation in
`src/app.py`; it is modelled here from the spec's words.
-/

/-- Modelled from the spec: match the leading-code pattern
`<CODE><digits> <description>` of spec §4.2: a leading run of letters, a
run of digits, a space, then the description. -/
def splitCodeName (s : List Char) : Option (List Char × List Char) :=
  let letters := s.takeWhile Char.isAlpha
  let afterLetters := s.dropWhile Char.isAlpha
  let digits := afterLetters.takeWhile Char.isDigit
  let rest := afterLetters.dropWhile Char.isDigit
  match letters, digits, rest with
  | _ :: _, _ :: _, ' ' :: desc => some (letters ++ digits, desc)
  | _, _, _ => none

/-- The trailing instructional-clause markers of spec §4.2. -/
def clauseMarkers : List String := [". Pen", ". Must", ". Use", ". No "]

/-- Cut the list just before the first occurrence of `marker` (the whole
list when the marker does not occur). -/
def cutBefore (marker : List Char) : List Char → List Char
  | [] => []
  | c :: cs =>
    if isPrefixB marker (c :: cs) then [] else c :: cutBefore marker cs

/-- Modelled from the spec: strip a trailing instructional clause
beginning with any of the markers (spec §4.2). -/
def stripClauses (desc : List Char) : List Char :=
  clauseMarkers.foldl (fun d m => cutBefore m.data d) desc

/-- Scanner for bracketed annotations: the flag records whether the scan
is inside a `[...]` span, whose characters are dropped. -/
def removeBracketedAux : Bool → List Char → List Char
  | _, [] => []
  | false, c :: cs =>
    if c = '[' then removeBracketedAux true cs
    else c :: removeBracketedAux false cs
  | true, c :: cs =>
    if c = ']' then removeBracketedAux false cs
    else removeBracketedAux true cs

/-- Modelled from the spec: strip any bracketed annotation `[...]`
(spec §4.2). -/
def removeBracketed (l : List Char) : List Char :=
  removeBracketedAux false l

/-- Modelled from the spec: truncate the description to 47 characters plus
an ellipsis when longer than 50 (spec §4.2). -/
def truncateDesc (d : List Char) : List Char :=
  if 50 < d.length then d.take 47 ++ ("...").data else d

/-- The "not a real event" skip phrases of spec §4.2. -/
def skipPhrases : List String :=
  ["students must bring", "voting delegates", "there are", "judge"]

/-- Modelled from the spec: the Event Name Normalizer (spec §4.2), absent
from `src/app.py`: clean a coded name (strip trailing instructional
clauses and bracketed annotations, truncate long descriptions), discard
non-event cells, truncate other long names, else return unchanged. -/
def normalize_event_name (raw : String) : Option String :=
  match splitCodeName raw.data with
  | some (code, desc) =>
    some ⟨code ++ (' ' :: truncateDesc (removeBracketed (stripClauses desc)))⟩
  | none =>
    if skipPhrases.any (fun ph => containsSub ph.data (lowerList raw.data))
    then none
    else if 60 < raw.data.length then some ⟨raw.data.take 57 ++ ("...").data⟩
    else some raw

example : normalize_event_name "There are 3 rounds" = none := by decide
example : normalize_event_name "Lunch" = some "Lunch" := by decide

/-- C7: the normalizer strips the trailing instructional clause from the
coded event name of the claim, yielding the code plus the cleaned
description. -/
theorem C7_normalizer_strips_trailing_clause :
    normalize_event_name
        "HP30001 Mechanical Engineering - Free Hand Sketch. Pen or Pencil Only." =
      some "HP30001 Mechanical Engineering - Free Hand Sketch" := by decide
